import Mathlib

/-!
Verification of the order intake validation workflow of the promed
backend (orders/views.py, orders/serializers.py, patients/models.py).

Decimal arithmetic in the source (`decimal.Decimal`) is exact at the
magnitudes reachable here (wound dimensions are DecimalField(max_digits=5,
decimal_places=2); variant sizes are short numerals), so `Decimal` values
are embedded as `ℚ`.  Strings are modelled over ASCII characters, which
covers every size descriptor and status value the application stores.
-/

namespace Promed

/-- Python `\s` on the ASCII range: space, tab, newline, carriage return,
vertical tab, form feed (the whitespace class used by `re` in
`parse_variant_size_to_cm2`). -/
def pySpace (c : Char) : Bool :=
  c == ' ' || c == '\t' || c == '\n' || c == '\r' || c == '\x0B' || c == '\x0C'

/-- Value of a list of decimal digit characters, most significant first
(the integer denoted by a regex group such as `\d+`). -/
def digitsVal (ds : List Char) : ℕ :=
  ds.foldl (fun a c => 10 * a + (c.toNat - 48)) 0

/-- Matching of the regex fragment `(\d+(?:\.\d+)?)` at the head of the
input, as `re` performs it: a maximal run of digits, then optionally a
dot followed by a maximal nonempty run of digits.  Returns the denoted
rational (the exact value `Decimal(group)` yields) and the unconsumed
rest; `none` when no digit starts the input. -/
def parseNum (cs : List Char) : Option (ℚ × List Char) :=
  let ds := cs.takeWhile Char.isDigit
  let r := cs.dropWhile Char.isDigit
  if ds.isEmpty then none
  else
    match r with
    | [] => some ((digitsVal ds : ℚ), [])
    | c :: r2 =>
      if c = '.' then
        let fs := r2.takeWhile Char.isDigit
        if fs.isEmpty then some ((digitsVal ds : ℚ), c :: r2)
        else some ((digitsVal ds : ℚ) + (digitsVal fs : ℚ) / (10 : ℚ) ^ fs.length,
                   r2.dropWhile Char.isDigit)
      else some ((digitsVal ds : ℚ), c :: r2)

/-- Matching of the optional unit group `(mm|cm)?` under `re.IGNORECASE`:
looks at the first two characters only; `some true` is `mm`, `some false`
is `cm`, `none` means the group did not participate. -/
def matchUnit (cs : List Char) : Option Bool :=
  match cs with
  | c1 :: c2 :: _ =>
    if c1.toLower = 'm' ∧ c2.toLower = 'm' then some true
    else if c1.toLower = 'c' ∧ c2.toLower = 'm' then some false
    else none
  | _ => none

/-- Core of `parse_variant_size_to_cm2`: the anchored match of
`(\d+(?:\.\d+)?)\s*[x×]\s*(\d+(?:\.\d+)?)\s*(mm|cm)?` with
`re.IGNORECASE`, then the unit conversion and multiplication the Python
function performs (`mm` divides both dimensions by 10; a missing unit
defaults to `cm`); 0 when the pattern does not match. -/
def parseSize (cs : List Char) : ℚ :=
  match parseNum cs with
  | none => 0
  | some (l, r1) =>
    match r1.dropWhile pySpace with
    | [] => 0
    | c :: r2 =>
      if c.toLower = 'x' ∨ c = '×' then
        match parseNum (r2.dropWhile pySpace) with
        | none => 0
        | some (w, r3) =>
          match matchUnit (r3.dropWhile pySpace) with
          | some true => (l / 10) * (w / 10)
          | _ => l * w
      else 0

/-- `parse_variant_size_to_cm2` from orders/views.py: empty (falsy)
input yields 0, otherwise the regex match above; any failure path
returns `Decimal('0')`. -/
def parse_variant_size_to_cm2 (s : String) : ℚ :=
  if s = "" then 0 else parseSize s.data

/-- One IVR form row (patients/models.py `IVRForm`): its status value
and submission time (most recent = largest `submitted_at`). -/
structure IVRForm where
  status : String
  submitted_at : ℕ
deriving DecidableEq

/-- The fields of `Patient` the order workflow reads: the two nullable
wound dimension decimals and the related IVR forms. -/
structure Patient where
  wound_size_length : Option ℚ
  wound_size_width : Option ℚ
  ivr_forms : List IVRForm
deriving DecidableEq

/-- A `ProductVariant` as the order flow sees it: its free-text size
descriptor. -/
structure ProductVariant where
  size : String
deriving DecidableEq

/-- One entry of the request's `items` list: `item.get('variant')`
(absent modelled as `none`) and `item.get('quantity', 0)`. -/
structure OrderItemReq where
  variant : Option ℕ
  quantity : ℕ
deriving DecidableEq

/-- `Patient.has_approved_ivr`: `ivr_forms.filter(status='approved').exists()`. -/
def hasApprovedIvr (p : Patient) : Bool :=
  p.ivr_forms.any (fun f => f.status == "approved")

/-- `Patient.latest_ivr`: `ivr_forms.order_by('-submitted_at').first()`;
ties between equal submission times are broken by keeping the earlier
row, one of the orders the unspecified database ordering may produce. -/
def latestIvr (p : Patient) : Option IVRForm :=
  p.ivr_forms.foldl
    (fun acc f =>
      match acc with
      | none => some f
      | some g => if g.submitted_at < f.submitted_at then some f else some g)
    none

/-- Django `get_status_display` over `IVR_STATUS_CHOICES`; an unknown
stored value is returned verbatim. -/
def statusDisplay (s : String) : String :=
  if s = "pending" then "Pending"
  else if s = "approved" then "Approved"
  else if s = "denied" then "Denied"
  else if s = "cancelled" then "Cancelled"
  else if s = "withdrawn" then "Withdrawn by Provider"
  else s

/-- The human-readable latest IVR status used in the rejection message
(views.py line 125 combined with `Patient.latest_ivr_status_display`). -/
def latestIvrStatusDisplay (p : Patient) : String :=
  match latestIvr p with
  | some f => statusDisplay f.status
  | none => "No IVR Submitted"

/-- The `detail` string of the insurance rejection response. -/
def ivrDetailMessage (p : Patient) : String :=
  "Patient must have an approved IVR to place orders. Current status: "
    ++ latestIvrStatusDisplay p

/-- Python truthiness of a nullable Decimal field: `None` and zero are
falsy. -/
def truthy (q : Option ℚ) : Bool :=
  match q with
  | none => false
  | some v => v != 0

/-- `wound_area = wound_length * wound_width` as computed at views.py
lines 147–149 (the `getD 0` defaults are unreachable: the wound-size
gate has already ensured both fields are present and nonzero). -/
def Patient.woundArea (p : Patient) : ℚ :=
  (p.wound_size_length.getD 0) * (p.wound_size_width.getD 0)

/-- `max_allowed_area = wound_area * Decimal('1.2')` (views.py line 150). -/
def Patient.maxAllowedArea (p : Patient) : ℚ :=
  p.woundArea * (1.2 : ℚ)

/-- The item loop of `CreateOrderView.create` (views.py lines 166–184):
walks the request items in order; the first item whose variant lookup
fails aborts with that identifier (`none` when the item carried no
variant key); otherwise each item whose parsed variant area is positive
contributes `area × quantity` to the running total. -/
def computeTotalArea (findVariant : ℕ → Option ProductVariant) :
    List OrderItemReq → ℚ → Except (Option ℕ) ℚ
  | [], acc => .ok acc
  | item :: rest, acc =>
    match item.variant with
    | none => .error none
    | some vid =>
      match findVariant vid with
      | none => .error (some vid)
      | some variant =>
        let a := parse_variant_size_to_cm2 variant.size
        let acc' := if 0 < a then acc + a * (item.quantity : ℚ) else acc
        computeTotalArea findVariant rest acc'

/-- The body of the order-creation request: `data.get('patient')` and
`data.get('items', [])` (an absent or null items key reads as the empty
list). -/
structure OrderRequest where
  patient : Option ℕ
  items : List OrderItemReq
deriving DecidableEq

/-- Outcome of `CreateOrderView.create`, carrying the payload fields the
claims are about.  `areaExceeded` carries the computed wound area, max
allowed area and total ordered area the response body reports (their
`float(...)` conversion is representation only). -/
inductive CreateOrderResult where
  | missingPatient
  | patientNotFound
  | insuranceNotApproved (detail : String)
  | woundSizeMissing
  | emptyOrder
  | variantNotFound (variantId : Option ℕ)
  | areaExceeded (wound_area max_allowed_area total_ordered_area : ℚ)
  | created (total_ordered_area : ℚ)
deriving DecidableEq

/-- `CreateOrderView.create` (views.py lines 96–205) up to the decision
point: the gate sequence — patient id present (Python truthiness, so id
0 also reads as missing), patient lookup scoped to the requesting
provider (`findPatient`), approved-IVR check, wound-size check, wound
area computation, empty-items check, the item loop, and the area cap
comparison `total_ordered_area > max_allowed_area`. -/
def createOrder (findPatient : ℕ → Option Patient)
    (findVariant : ℕ → Option ProductVariant) (req : OrderRequest) :
    CreateOrderResult :=
  match req.patient with
  | none => .missingPatient
  | some pid =>
    if pid = 0 then .missingPatient
    else
      match findPatient pid with
      | none => .patientNotFound
      | some patient =>
        if hasApprovedIvr patient = false then
          .insuranceNotApproved (ivrDetailMessage patient)
        else if truthy patient.wound_size_length = false
            ∨ truthy patient.wound_size_width = false then
          .woundSizeMissing
        else if req.items.isEmpty then .emptyOrder
        else
          match computeTotalArea findVariant req.items 0 with
          | .error vid => .variantNotFound vid
          | .ok total =>
            if patient.maxAllowedArea < total then
              .areaExceeded patient.woundArea patient.maxAllowedArea total
            else .created total

/-- `OrderSerializer.create` (orders/serializers.py lines 25–39) writes
through a database connection in autocommit mode: the settings define no
`ATOMIC_REQUESTS` and the serializer opens no transaction, so each
`objects.create` call commits independently and may fail independently.
The state is the set of committed rows. -/
structure OrderDB where
  orders : List ℕ
  order_items : List (ℕ × ℕ × ℕ × ℕ)
deriving DecidableEq

/-- The item loop of `OrderSerializer.create`: one `OrderItem.objects.create`
per validated item, in order.  `ok i` tells whether the `i`-th insert
succeeds; a failing insert raises, ending the loop with every earlier
insert already committed.  Returns the resulting state and whether the
whole loop completed. -/
def persistItems (ok : ℕ → Bool) : ℕ → OrderDB → ℕ → List (ℕ × ℕ × ℕ) →
    OrderDB × Bool
  | _, db, _, [] => (db, true)
  | i, db, oid, (prod, var, qty) :: rest =>
    if ok i then
      persistItems ok (i + 1)
        { db with order_items := db.order_items ++ [(oid, prod, var, qty)] }
        oid rest
    else (db, false)

/-- `OrderSerializer.create`: `Order.objects.create(...)` (insert index 0)
followed by one `OrderItem.objects.create(...)` per item (indexes 1, 2, …),
with no enclosing transaction. -/
def persistOrder (ok : ℕ → Bool) (db : OrderDB) (oid : ℕ)
    (items : List (ℕ × ℕ × ℕ)) : OrderDB × Bool :=
  if ok 0 then
    persistItems ok 1 { db with orders := db.orders ++ [oid] } oid items
  else (db, false)

/-! ### Helper lemmas about the regex embedding -/

theorem span_append (p : Char → Bool) (l r : List Char)
    (hl : ∀ c ∈ l, p c = true) (hr : ∀ c, r.head? = some c → p c = false) :
    (l ++ r).takeWhile p = l ∧ (l ++ r).dropWhile p = r := by
  induction l with
  | nil =>
    cases r with
    | nil => simp
    | cons c t =>
      have hc := hr c rfl
      simp [List.takeWhile, List.dropWhile, hc]
  | cons a l ih =>
    have ha := hl a (by simp)
    have ih' := ih (fun c hc => hl c (by simp [hc]))
    simp [List.takeWhile, List.dropWhile, ha, ih'.1, ih'.2]

theorem digit_not_pySpace (c : Char) (h : c.isDigit = true) :
    pySpace c = false := by
  by_contra hb
  have hps : pySpace c = true := by
    revert hb; cases pySpace c <;> simp
  simp only [pySpace, Bool.or_eq_true, beq_iff_eq] at hps
  rcases hps with (((((rfl | rfl) | rfl) | rfl) | rfl) | rfl) <;>
    exact absurd h (by decide)

/-- The characters of a numeral matched by `\d+(?:\.\d+)?`: an integer
digit run `ds` and an optional fractional digit run. -/
def numChars (ds : List Char) (fr : Option (List Char)) : List Char :=
  match fr with
  | none => ds
  | some fs => ds ++ '.' :: fs

/-- The exact rational value `Decimal` gives to such a numeral. -/
def numVal (ds : List Char) (fr : Option (List Char)) : ℚ :=
  match fr with
  | none => (digitsVal ds : ℚ)
  | some fs => (digitsVal ds : ℚ) + (digitsVal fs : ℚ) / (10 : ℚ) ^ fs.length

/-- Wellformedness of a numeral: nonempty digit runs only. -/
def GoodNum (ds : List Char) (fr : Option (List Char)) : Prop :=
  ds ≠ [] ∧ (∀ c ∈ ds, c.isDigit = true) ∧
    match fr with
    | none => True
    | some fs => fs ≠ [] ∧ ∀ c ∈ fs, c.isDigit = true

theorem isEmpty_false_of_ne_nil {α : Type} {l : List α} (h : l ≠ []) :
    l.isEmpty = false := by
  cases l with
  | nil => exact absurd rfl h
  | cons a t => rfl

theorem parseNum_numChars (ds : List Char) (fr : Option (List Char))
    (r : List Char) (h : GoodNum ds fr)
    (hr : ∀ c, r.head? = some c → c.isDigit = false ∧ c ≠ '.') :
    parseNum (numChars ds fr ++ r) = some (numVal ds fr, r) := by
  obtain ⟨hne, hdig, hfr⟩ := h
  cases fr with
  | none =>
    have hsp := span_append Char.isDigit ds r hdig (fun c hc => (hr c hc).1)
    simp only [numChars, parseNum, hsp.1, hsp.2,
      isEmpty_false_of_ne_nil hne, if_false, Bool.false_eq_true]
    cases r with
    | nil => simp [numVal]
    | cons c t =>
      have hc := hr c rfl
      simp [hc.2, numVal]
  | some fs =>
    obtain ⟨hfne, hfdig⟩ := hfr
    have hsp := span_append Char.isDigit ds ('.' :: (fs ++ r)) hdig
      (fun c hc => by
        simp only [List.head?] at hc
        cases hc; decide)
    have hsp2 := span_append Char.isDigit fs r hfdig (fun c hc => (hr c hc).1)
    have harr : numChars ds (some fs) ++ r = ds ++ ('.' :: (fs ++ r)) := by
      simp [numChars]
    rw [harr]
    simp only [parseNum, hsp.1, hsp.2, isEmpty_false_of_ne_nil hne,
      Bool.false_eq_true, if_false, if_pos rfl, hsp2.1, hsp2.2,
      isEmpty_false_of_ne_nil hfne, numVal]
    simp

theorem dropWhile_cons_false (p : Char → Bool) (c : Char) (t : List Char)
    (h : p c = false) : List.dropWhile p (c :: t) = c :: t := by
  simp [List.dropWhile, h]

theorem parseSize_numPair (ds₁ : List Char) (fr₁ : Option (List Char))
    (ds₂ : List Char) (fr₂ : Option (List Char)) (unit : List Char)
    (h₁ : GoodNum ds₁ fr₁) (h₂ : GoodNum ds₂ fr₂)
    (hu : ∀ c, unit.head? = some c → c.isDigit = false ∧ c ≠ '.') :
    parseSize (numChars ds₁ fr₁ ++ 'x' :: (numChars ds₂ fr₂ ++ unit)) =
      match matchUnit (unit.dropWhile pySpace) with
      | some true => (numVal ds₁ fr₁ / 10) * (numVal ds₂ fr₂ / 10)
      | _ => numVal ds₁ fr₁ * numVal ds₂ fr₂ := by
  have h1 := parseNum_numChars ds₁ fr₁ ('x' :: (numChars ds₂ fr₂ ++ unit)) h₁
    (fun c hc => by
      simp only [List.head?] at hc
      cases hc; decide)
  have h2 := parseNum_numChars ds₂ fr₂ unit h₂ hu
  obtain ⟨d, t₂, hds₂⟩ : ∃ d t₂, ds₂ = d :: t₂ := by
    cases ds₂ with
    | nil => exact absurd rfl h₂.1
    | cons d t => exact ⟨d, t, rfl⟩
  have hdd : d.isDigit = true := h₂.2.1 d (by simp [hds₂])
  have hhead : ∃ rest, numChars ds₂ fr₂ ++ unit = d :: rest := by
    cases fr₂ with
    | none => exact ⟨t₂ ++ unit, by simp [numChars, hds₂]⟩
    | some fs => exact ⟨t₂ ++ '.' :: fs ++ unit, by simp [numChars, hds₂]⟩
  obtain ⟨rest, hrest⟩ := hhead
  have hdrop2 : List.dropWhile pySpace (numChars ds₂ fr₂ ++ unit)
      = numChars ds₂ fr₂ ++ unit := by
    rw [hrest]
    exact dropWhile_cons_false pySpace d rest (digit_not_pySpace d hdd)
  simp only [parseSize, h1,
    dropWhile_cons_false pySpace 'x' (numChars ds₂ fr₂ ++ unit) (by decide),
    if_pos (Or.inl (show Char.toLower 'x' = 'x' by decide)), hdrop2, h2]

/-! ### Helper lemmas about the item loop and the gate sequence -/

theorem computeTotalArea_all_zero (fv : ℕ → Option ProductVariant)
    (items : List OrderItemReq) (acc : ℚ)
    (h : ∀ item ∈ items, ∃ vid v, item.variant = some vid ∧ fv vid = some v ∧
      parse_variant_size_to_cm2 v.size = 0) :
    computeTotalArea fv items acc = .ok acc := by
  induction items with
  | nil => rfl
  | cons item rest ih =>
    obtain ⟨vid, v, hv, hfv, hz⟩ := h item (by simp)
    have hrest := ih (fun it hit => h it (by simp [hit]))
    simp [computeTotalArea, hv, hfv, hz, hrest]

theorem computeTotalArea_first_missing (fv : ℕ → Option ProductVariant)
    (pre : List OrderItemReq) (bad : OrderItemReq) (rest : List OrderItemReq)
    (acc : ℚ) (w : ℕ)
    (hpre : ∀ item ∈ pre, ∃ vid v, item.variant = some vid ∧ fv vid = some v)
    (hbv : bad.variant = some w) (hmiss : fv w = none) :
    computeTotalArea fv (pre ++ bad :: rest) acc = .error (some w) := by
  induction pre generalizing acc with
  | nil => simp [computeTotalArea, hbv, hmiss]
  | cons item pre' ih =>
    have hpre' : ∀ it ∈ pre', ∃ vid v, it.variant = some vid ∧ fv vid = some v :=
      fun it hit => hpre it (List.mem_cons_of_mem _ hit)
    obtain ⟨vid, v, hv, hfv⟩ := hpre item (List.mem_cons_self _ _)
    simp only [List.cons_append, computeTotalArea, hv, hfv]
    exact ih _ hpre'

theorem createOrder_gates (fp : ℕ → Option Patient)
    (fv : ℕ → Option ProductVariant) (pid : ℕ) (p : Patient)
    (items : List OrderItemReq)
    (hpid : pid ≠ 0) (hp : fp pid = some p)
    (hivr : hasApprovedIvr p = true)
    (hl : truthy p.wound_size_length = true)
    (hw : truthy p.wound_size_width = true)
    (hne : items ≠ []) :
    createOrder fp fv ⟨some pid, items⟩ =
      match computeTotalArea fv items 0 with
      | .error vid => .variantNotFound vid
      | .ok total =>
        if p.maxAllowedArea < total then
          .areaExceeded p.woundArea p.maxAllowedArea total
        else .created total := by
  simp only [createOrder, hp, if_neg hpid, hivr, hl, hw,
    isEmpty_false_of_ne_nil hne, Bool.true_eq_false, or_self, if_false,
    Bool.false_eq_true]

/-! ### Gate-sequence corollaries -/

theorem createOrder_gates_ok (fp : ℕ → Option Patient)
    (fv : ℕ → Option ProductVariant) (pid : ℕ) (p : Patient)
    (items : List OrderItemReq) (total : ℚ)
    (hpid : pid ≠ 0) (hp : fp pid = some p)
    (hivr : hasApprovedIvr p = true)
    (hl : truthy p.wound_size_length = true)
    (hw : truthy p.wound_size_width = true)
    (hne : items ≠ [])
    (ht : computeTotalArea fv items 0 = .ok total) :
    createOrder fp fv ⟨some pid, items⟩ =
      if p.maxAllowedArea < total then
        .areaExceeded p.woundArea p.maxAllowedArea total
      else .created total := by
  have hg := createOrder_gates fp fv pid p items hpid hp hivr hl hw hne
  rw [ht] at hg
  exact hg

theorem createOrder_gates_error (fp : ℕ → Option Patient)
    (fv : ℕ → Option ProductVariant) (pid : ℕ) (p : Patient)
    (items : List OrderItemReq) (vid : Option ℕ)
    (hpid : pid ≠ 0) (hp : fp pid = some p)
    (hivr : hasApprovedIvr p = true)
    (hl : truthy p.wound_size_length = true)
    (hw : truthy p.wound_size_width = true)
    (hne : items ≠ [])
    (ht : computeTotalArea fv items 0 = .error vid) :
    createOrder fp fv ⟨some pid, items⟩ = .variantNotFound vid := by
  have hg := createOrder_gates fp fv pid p items hpid hp hivr hl hw hne
  rw [ht] at hg
  exact hg

/-! ### Concrete fixtures used by the witnesses and counterexamples -/

/-- An approved IVR form. -/
def approvedIvr : IVRForm := ⟨"approved", 5⟩

/-- A pending IVR form submitted later than any other fixture form. -/
def pendingIvr : IVRForm := ⟨"pending", 9⟩

/-- A patient with a 4cm × 4cm wound and an approved IVR. -/
def patient44 : Patient := ⟨some 4, some 4, [approvedIvr]⟩

/-- A patient whose only IVR form is pending. -/
def patientPending : Patient := ⟨some 4, some 4, [pendingIvr]⟩

/-- A patient with a stored negative wound width (the Django field has no
validator excluding this) and an approved IVR. -/
def patientNegative : Patient := ⟨some 1, some (-1), [approvedIvr]⟩

/-- A patient whose recorded wound length is exactly zero. -/
def patientZero : Patient := ⟨some 0, some 4, [approvedIvr]⟩

/-- Patient lookup fixture (`Patient.objects.get(id=..., provider=user)`). -/
def fpMain : ℕ → Option Patient :=
  fun pid =>
    if pid = 3 then some patient44
    else if pid = 4 then some patientPending
    else if pid = 5 then some patientNegative
    else if pid = 6 then some patientZero
    else none

/-- Variant lookup fixture: id 7 is a "2x2cm" variant, id 8 has the
unparseable size "large", everything else does not exist. -/
def fvMain : ℕ → Option ProductVariant :=
  fun vid =>
    if vid = 7 then some ⟨"2x2cm"⟩
    else if vid = 8 then some ⟨"large"⟩
    else none

/-! ### Claim theorems -/

/-- C1: for every order-creation request that passes the patient, IVR,
wound-size, non-empty-items and variant-existence checks, the order is
rejected with `area_exceeded` if and only if the total ordered area is
strictly greater than the max allowed area; at exact equality the order
is accepted; and every `area_exceeded` rejection carries the computed
wound area, max allowed area and total ordered area. -/
theorem claim1_area_cap_boundary (fp : ℕ → Option Patient)
    (fv : ℕ → Option ProductVariant) (pid : ℕ) (p : Patient)
    (items : List OrderItemReq) (total : ℚ)
    (hpid : pid ≠ 0) (hp : fp pid = some p)
    (hivr : hasApprovedIvr p = true)
    (hl : truthy p.wound_size_length = true)
    (hw : truthy p.wound_size_width = true)
    (hne : items ≠ [])
    (ht : computeTotalArea fv items 0 = .ok total) :
    (createOrder fp fv ⟨some pid, items⟩
        = .areaExceeded p.woundArea p.maxAllowedArea total
      ↔ p.maxAllowedArea < total)
    ∧ (total = p.maxAllowedArea →
        createOrder fp fv ⟨some pid, items⟩ = .created total)
    ∧ ∀ w m t, createOrder fp fv ⟨some pid, items⟩ = .areaExceeded w m t →
        w = p.woundArea ∧ m = p.maxAllowedArea ∧ t = total := by
  have hg := createOrder_gates_ok fp fv pid p items total hpid hp hivr hl hw hne ht
  by_cases hlt : p.maxAllowedArea < total
  · rw [if_pos hlt] at hg
    refine ⟨⟨fun _ => hlt, fun _ => hg⟩, fun he => ?_, fun w m t h => ?_⟩
    · exact absurd hlt (by rw [he]; exact lt_irrefl _)
    · rw [hg] at h
      injection h with h1 h2 h3
      exact ⟨h1.symm, h2.symm, h3.symm⟩
  · rw [if_neg hlt] at hg
    refine ⟨⟨fun h => ?_, fun h => absurd h hlt⟩, fun _ => hg, fun w m t h => ?_⟩
    · rw [hg] at h; exact absurd h (by simp)
    · rw [hg] at h; exact absurd h (by simp)

/-- Witness for C1 at the 4cm × 4cm patient and a 4-unit order of the
"2x2cm" variant (total 16 ≤ 19.2). -/
theorem claim1_area_cap_boundary_witness :
    (createOrder fpMain fvMain ⟨some 3, [⟨some 7, 4⟩]⟩
        = .areaExceeded patient44.woundArea patient44.maxAllowedArea 16
      ↔ patient44.maxAllowedArea < 16)
    ∧ (16 = patient44.maxAllowedArea →
        createOrder fpMain fvMain ⟨some 3, [⟨some 7, 4⟩]⟩ = .created 16)
    ∧ ∀ w m t, createOrder fpMain fvMain ⟨some 3, [⟨some 7, 4⟩]⟩
        = .areaExceeded w m t →
        w = patient44.woundArea ∧ m = patient44.maxAllowedArea ∧ t = 16 :=
  claim1_area_cap_boundary fpMain fvMain 3 patient44 [⟨some 7, 4⟩] 16
    (by decide) rfl rfl rfl rfl (by decide)
    (by norm_num [computeTotalArea, fvMain,
      show parse_variant_size_to_cm2 "2x2cm" = ((2:ℕ):ℚ) * ((2:ℕ):ℚ) from rfl])

/-- C2: an order for an existing patient of the requesting provider who
has no IVR form with status "approved" is rejected with the
insurance-not-approved error whose message embeds the human-readable
latest IVR status, for every variant catalog and item list (so before
any wound-area or item-area computation). -/
theorem claim2_ivr_gate (fp : ℕ → Option Patient)
    (fv : ℕ → Option ProductVariant) (pid : ℕ) (p : Patient)
    (items : List OrderItemReq)
    (hpid : pid ≠ 0) (hp : fp pid = some p)
    (hivr : hasApprovedIvr p = false) :
    createOrder fp fv ⟨some pid, items⟩
      = .insuranceNotApproved (ivrDetailMessage p)
    ∧ ivrDetailMessage p
      = "Patient must have an approved IVR to place orders. Current status: "
        ++ latestIvrStatusDisplay p := by
  refine ⟨?_, rfl⟩
  simp [createOrder, hp, if_neg hpid, hivr]

/-- Witness for C2: the pending-IVR patient, a nonempty item list, and
the main catalog. -/
theorem claim2_ivr_gate_witness :
    createOrder fpMain fvMain ⟨some 4, [⟨some 7, 1⟩]⟩
      = .insuranceNotApproved (ivrDetailMessage patientPending)
    ∧ ivrDetailMessage patientPending
      = "Patient must have an approved IVR to place orders. Current status: "
        ++ latestIvrStatusDisplay patientPending :=
  claim2_ivr_gate fpMain fvMain 4 patientPending [⟨some 7, 1⟩]
    (by decide) rfl rfl

/-- C3: the wound area is exactly L × W and the cap exactly 1.2 × L × W
under exact decimal arithmetic, and the 4×4 wound scenario behaves as
specified: 4 units of a "2x2cm" variant (16 cm²) are accepted, 5 units
(20 cm²) are rejected with `area_exceeded` reporting wound_area = 16,
max_allowed_area = 19.2, total_ordered_area = 20. -/
theorem claim3_exact_decimal_scenario :
    (∀ (L W : ℚ), 0 < L → 0 < W → ∀ ivrs : List IVRForm,
      (Patient.mk (some L) (some W) ivrs).woundArea = L * W
      ∧ (Patient.mk (some L) (some W) ivrs).maxAllowedArea = 1.2 * (L * W))
    ∧ createOrder fpMain fvMain ⟨some 3, [⟨some 7, 4⟩]⟩ = .created 16
    ∧ createOrder fpMain fvMain ⟨some 3, [⟨some 7, 5⟩]⟩
        = .areaExceeded 16 19.2 20 := by
  refine ⟨fun L W _ _ ivrs => ⟨rfl, ?_⟩, ?_, ?_⟩
  · simp only [Patient.maxAllowedArea, Patient.woundArea, Option.getD_some]
    ring
  · norm_num [createOrder, fpMain, fvMain, patient44, approvedIvr,
      hasApprovedIvr, truthy, computeTotalArea, Patient.maxAllowedArea,
      Patient.woundArea,
      show parse_variant_size_to_cm2 "2x2cm" = ((2:ℕ):ℚ) * ((2:ℕ):ℚ) from rfl]
  · norm_num [createOrder, fpMain, fvMain, patient44, approvedIvr,
      hasApprovedIvr, truthy, computeTotalArea, Patient.maxAllowedArea,
      Patient.woundArea,
      show parse_variant_size_to_cm2 "2x2cm" = ((2:ℕ):ℚ) * ((2:ℕ):ℚ) from rfl]

/-- Witness for C3 at L = W = 4. -/
theorem claim3_exact_decimal_scenario_witness :
    (Patient.mk (some 4) (some 4) [approvedIvr]).woundArea = 4 * 4
    ∧ (Patient.mk (some 4) (some 4) [approvedIvr]).maxAllowedArea
        = 1.2 * (4 * 4) :=
  claim3_exact_decimal_scenario.1 4 4 (by norm_num) (by norm_num) [approvedIvr]

/-- C7: a request whose item list is empty (an absent or null `items`
key reads as the empty list) is rejected with the empty-order error,
for every variant catalog — the item-area computation is never
consulted. -/
theorem claim7_empty_order (fp : ℕ → Option Patient)
    (fv : ℕ → Option ProductVariant) (pid : ℕ) (p : Patient)
    (hpid : pid ≠ 0) (hp : fp pid = some p)
    (hivr : hasApprovedIvr p = true)
    (hl : truthy p.wound_size_length = true)
    (hw : truthy p.wound_size_width = true) :
    createOrder fp fv ⟨some pid, []⟩ = .emptyOrder := by
  simp [createOrder, hp, if_neg hpid, hivr, hl, hw]

/-- Witness for C7 at the approved 4×4 patient. -/
theorem claim7_empty_order_witness :
    createOrder fpMain fvMain ⟨some 3, []⟩ = .emptyOrder :=
  claim7_empty_order fpMain fvMain 3 patient44 (by decide) rfl rfl rfl rfl

/-- C8: if some line item references a variant identifier no variant
has, and every earlier item's variant exists, the request is rejected
with an error naming that offending identifier (the item is not
silently skipped). -/
theorem claim8_variant_not_found (fp : ℕ → Option Patient)
    (fv : ℕ → Option ProductVariant) (pid : ℕ) (p : Patient)
    (pre : List OrderItemReq) (bad : OrderItemReq) (rest : List OrderItemReq)
    (w : ℕ)
    (hpid : pid ≠ 0) (hp : fp pid = some p)
    (hivr : hasApprovedIvr p = true)
    (hl : truthy p.wound_size_length = true)
    (hw : truthy p.wound_size_width = true)
    (hpre : ∀ item ∈ pre, ∃ vid v, item.variant = some vid ∧ fv vid = some v)
    (hbv : bad.variant = some w) (hmiss : fv w = none) :
    createOrder fp fv ⟨some pid, pre ++ bad :: rest⟩
      = .variantNotFound (some w) := by
  exact createOrder_gates_error fp fv pid p (pre ++ bad :: rest) (some w)
    hpid hp hivr hl hw (by simp)
    (computeTotalArea_first_missing fv pre bad rest 0 w hpre hbv hmiss)

/-- Witness for C8: a valid first item, then an item naming the
nonexistent variant 99. -/
theorem claim8_variant_not_found_witness :
    createOrder fpMain fvMain ⟨some 3, [⟨some 7, 1⟩] ++ ⟨some 99, 2⟩ :: []⟩
      = .variantNotFound (some 99) :=
  claim8_variant_not_found fpMain fvMain 3 patient44 [⟨some 7, 1⟩]
    ⟨some 99, 2⟩ [] 99 (by decide) rfl rfl rfl rfl
    (by
      intro item h
      rw [List.mem_singleton] at h
      subst h
      exact ⟨7, ⟨"2x2cm"⟩, rfl, rfl⟩)
    rfl rfl

/-- C4: the size parser is insensitive to separator spacing and the
explicit "cm" token ("2x2" = "2 x 2 cm"), converts mm at a 10:1 scale
("20x20mm" = "2x2cm" = 4 cm²), and in general parsing `<a>x<b>mm` equals
parsing `<a/10>x<b/10>cm` for any decimal numerals denoting a, b and
their tenths. -/
theorem claim4_unit_scale :
    parse_variant_size_to_cm2 "2x2" = parse_variant_size_to_cm2 "2 x 2 cm"
    ∧ parse_variant_size_to_cm2 "20x20mm" = parse_variant_size_to_cm2 "2x2cm"
    ∧ parse_variant_size_to_cm2 "2x2cm" = 4
    ∧ ∀ ds₁ fr₁ ds₂ fr₂ ds₁' fr₁' ds₂' fr₂',
        GoodNum ds₁ fr₁ → GoodNum ds₂ fr₂ →
        GoodNum ds₁' fr₁' → GoodNum ds₂' fr₂' →
        numVal ds₁' fr₁' * 10 = numVal ds₁ fr₁ →
        numVal ds₂' fr₂' * 10 = numVal ds₂ fr₂ →
        parseSize (numChars ds₁ fr₁ ++ 'x' :: (numChars ds₂ fr₂ ++ ['m', 'm']))
          = parseSize
              (numChars ds₁' fr₁' ++ 'x' :: (numChars ds₂' fr₂' ++ ['c', 'm'])) := by
  refine ⟨?_, ?_, ?_, ?_⟩
  · rfl
  · have h1 : parse_variant_size_to_cm2 "20x20mm"
        = (((20:ℕ):ℚ) / 10) * (((20:ℕ):ℚ) / 10) := rfl
    have h2 : parse_variant_size_to_cm2 "2x2cm" = ((2:ℕ):ℚ) * ((2:ℕ):ℚ) := rfl
    rw [h1, h2]; norm_num
  · have h2 : parse_variant_size_to_cm2 "2x2cm" = ((2:ℕ):ℚ) * ((2:ℕ):ℚ) := rfl
    rw [h2]; norm_num
  · intro ds₁ fr₁ ds₂ fr₂ ds₁' fr₁' ds₂' fr₂' h₁ h₂ h₁' h₂' ha hb
    have hmm : ∀ c : Char, (['m', 'm'] : List Char).head? = some c →
        c.isDigit = false ∧ c ≠ '.' := by
      intro c hc
      simp only [List.head?] at hc
      cases hc; exact ⟨by decide, by decide⟩
    have hcm : ∀ c : Char, (['c', 'm'] : List Char).head? = some c →
        c.isDigit = false ∧ c ≠ '.' := by
      intro c hc
      simp only [List.head?] at hc
      cases hc; exact ⟨by decide, by decide⟩
    rw [parseSize_numPair ds₁ fr₁ ds₂ fr₂ ['m', 'm'] h₁ h₂ hmm,
      parseSize_numPair ds₁' fr₁' ds₂' fr₂' ['c', 'm'] h₁' h₂' hcm]
    have e1 : matchUnit (List.dropWhile pySpace ['m', 'm']) = some true := rfl
    have e2 : matchUnit (List.dropWhile pySpace ['c', 'm']) = some false := rfl
    rw [e1, e2]
    have f1 : numVal ds₁' fr₁' = numVal ds₁ fr₁ / 10 := by
      rw [← ha]; ring
    have f2 : numVal ds₂' fr₂' = numVal ds₂ fr₂ / 10 := by
      rw [← hb]; ring
    simp only [f1, f2]

/-- Witness for C4's general clause at "20x20mm" versus "2x2cm". -/
theorem claim4_unit_scale_witness :
    parseSize (numChars ['2', '0'] none ++ 'x'
        :: (numChars ['2', '0'] none ++ ['m', 'm']))
      = parseSize (numChars ['2'] none ++ 'x'
        :: (numChars ['2'] none ++ ['c', 'm'])) :=
  claim4_unit_scale.2.2.2 ['2', '0'] none ['2', '0'] none ['2'] none ['2'] none
    ⟨by decide, by decide, trivial⟩ ⟨by decide, by decide, trivial⟩
    ⟨by decide, by decide, trivial⟩ ⟨by decide, by decide, trivial⟩
    (by show ((2:ℕ):ℚ) * 10 = ((20:ℕ):ℚ); norm_num)
    (by show ((2:ℕ):ℚ) * 10 = ((20:ℕ):ℚ); norm_num)

/-- C5 counterexample: the unit token "in" is neither consumed nor fatal —
`"2x2in"` parses to 4 cm², not to the zero area the claim requires for a
unit token other than mm/cm. -/
theorem claim5_counterexample :
    parse_variant_size_to_cm2 "2x2in" = 4 ∧ (4 : ℚ) ≠ 0 := by
  have h : parse_variant_size_to_cm2 "2x2in" = ((2:ℕ):ℚ) * ((2:ℕ):ℚ) := rfl
  exact ⟨by rw [h]; norm_num, by norm_num⟩

/-- C5 amended: an absent unit is read as centimeters; "mm" divides both
dimensions by 10; any other trailing token is simply ignored by the
optional unit group and the dimensions are still read as centimeters
(the descriptor is not treated as unparseable). -/
theorem claim5_unit_handling (ds₁ : List Char) (fr₁ : Option (List Char))
    (ds₂ : List Char) (fr₂ : Option (List Char))
    (h₁ : GoodNum ds₁ fr₁) (h₂ : GoodNum ds₂ fr₂) :
    (∀ U : List Char,
      (∀ c, U.head? = some c → c.isDigit = false ∧ c ≠ '.') →
      matchUnit (U.dropWhile pySpace) = none →
      parseSize (numChars ds₁ fr₁ ++ 'x' :: (numChars ds₂ fr₂ ++ U))
        = numVal ds₁ fr₁ * numVal ds₂ fr₂)
    ∧ parseSize (numChars ds₁ fr₁ ++ 'x' :: (numChars ds₂ fr₂ ++ ['m', 'm']))
        = (numVal ds₁ fr₁ / 10) * (numVal ds₂ fr₂ / 10) := by
  constructor
  · intro U hU hmu
    rw [parseSize_numPair ds₁ fr₁ ds₂ fr₂ U h₁ h₂ hU, hmu]
  · have hmm : ∀ c : Char, (['m', 'm'] : List Char).head? = some c →
        c.isDigit = false ∧ c ≠ '.' := by
      intro c hc
      simp only [List.head?] at hc
      cases hc; exact ⟨by decide, by decide⟩
    rw [parseSize_numPair ds₁ fr₁ ds₂ fr₂ ['m', 'm'] h₁ h₂ hmm]
    rfl

/-- Witness for C5 amended, at "2x2" with the unknown unit token "in"
(yielding 2 × 2 in centimeters) and at "2x2mm". -/
theorem claim5_unit_handling_witness :
    parseSize (numChars ['2'] none ++ 'x'
        :: (numChars ['2'] none ++ ['i', 'n']))
      = numVal ['2'] none * numVal ['2'] none
    ∧ parseSize (numChars ['2'] none ++ 'x'
        :: (numChars ['2'] none ++ ['m', 'm']))
      = (numVal ['2'] none / 10) * (numVal ['2'] none / 10) := by
  have h := claim5_unit_handling ['2'] none ['2'] none
    ⟨by decide, by decide, trivial⟩ ⟨by decide, by decide, trivial⟩
  refine ⟨h.1 ['i', 'n'] ?_ rfl, h.2⟩
  intro c hc
  simp only [List.head?] at hc
  cases hc; exact ⟨by decide, by decide⟩

/-- C6: a variant whose size fails to parse contributes area zero rather
than an error, so an order every item of which references such a variant
has total ordered area 0 and is accepted whatever the quantities, once
the earlier gates pass (positive recorded wound dimensions). -/
theorem claim6_fail_open (fp : ℕ → Option Patient)
    (fv : ℕ → Option ProductVariant) (pid : ℕ) (p : Patient)
    (items : List OrderItemReq) (L W : ℚ)
    (hpid : pid ≠ 0) (hp : fp pid = some p)
    (hivr : hasApprovedIvr p = true)
    (hLf : p.wound_size_length = some L) (hWf : p.wound_size_width = some W)
    (hL : 0 < L) (hW : 0 < W)
    (hne : items ≠ [])
    (hall : ∀ item ∈ items, ∃ vid v, item.variant = some vid ∧ fv vid = some v ∧
      parse_variant_size_to_cm2 v.size = 0) :
    createOrder fp fv ⟨some pid, items⟩ = .created 0 := by
  have htr1 : truthy p.wound_size_length = true := by
    rw [hLf]; simp [truthy, ne_of_gt hL]
  have htr2 : truthy p.wound_size_width = true := by
    rw [hWf]; simp [truthy, ne_of_gt hW]
  have hg := createOrder_gates_ok fp fv pid p items 0 hpid hp hivr htr1 htr2 hne
    (computeTotalArea_all_zero fv items 0 hall)
  have hmax : 0 < p.maxAllowedArea := by
    have : p.woundArea = L * W := by
      simp [Patient.woundArea, hLf, hWf]
    simp only [Patient.maxAllowedArea, this]
    positivity
  rw [if_neg (not_lt.mpr (le_of_lt hmax))] at hg
  exact hg

/-- Witness for C6: an order of 999999 units of the "large" variant for
the approved 4×4 patient is accepted with total area 0. -/
theorem claim6_fail_open_witness :
    createOrder fpMain fvMain ⟨some 3, [⟨some 8, 999999⟩]⟩ = .created 0 :=
  claim6_fail_open fpMain fvMain 3 patient44 [⟨some 8, 999999⟩] 4 4
    (by decide) rfl rfl rfl rfl (by norm_num) (by norm_num) (by decide)
    (by
      intro item h
      rw [List.mem_singleton] at h
      subst h
      exact ⟨8, ⟨"large"⟩, rfl, rfl, rfl⟩)

/-- C9 counterexample: with the first item insert failing, the committed
state holds the order row and none of its two item rows — neither "all
items created" nor "nothing created", refuting atomicity. -/
theorem claim9_counterexample :
    (persistOrder (fun i => i == 0) ⟨[], []⟩ 42 [(1, 7, 4), (1, 8, 2)]).1.orders
      = [42]
    ∧ (persistOrder (fun i => i == 0) ⟨[], []⟩ 42
        [(1, 7, 4), (1, 8, 2)]).1.order_items = []
    ∧ (persistOrder (fun i => i == 0) ⟨[], []⟩ 42 [(1, 7, 4), (1, 8, 2)]).2
      = false := by
  exact ⟨rfl, rfl, rfl⟩

theorem persistItems_all_ok (ok : ℕ → Bool) (oid : ℕ)
    (hok : ∀ i, ok i = true) :
    ∀ (items : List (ℕ × ℕ × ℕ)) (i : ℕ) (db : OrderDB),
    persistItems ok i db oid items
      = ({ db with order_items := db.order_items
            ++ items.map (fun it => (oid, it.1, it.2.1, it.2.2)) }, true) := by
  intro items
  induction items with
  | nil => intro i db; cases db; simp [persistItems]
  | cons it rest ih =>
    intro i db
    obtain ⟨prodId, varId, qty⟩ := it
    simp only [persistItems, hok i, if_pos]
    rw [ih]
    cases db
    simp

/-- C9 amended: the order row is inserted first and item rows one at a
time with no enclosing transaction; when every insert succeeds, the
order row and all of its item rows are committed (a failing insert
instead leaves the order and the earlier items committed, as the
counterexample shows). -/
theorem claim9_sequential_persistence (ok : ℕ → Bool) (db : OrderDB)
    (oid : ℕ) (items : List (ℕ × ℕ × ℕ)) (hok : ∀ i, ok i = true) :
    persistOrder ok db oid items
      = ({ orders := db.orders ++ [oid],
           order_items := db.order_items
             ++ items.map (fun it => (oid, it.1, it.2.1, it.2.2)) }, true) := by
  rw [persistOrder, if_pos (hok 0), persistItems_all_ok ok oid hok]

/-- Witness for C9 amended: all inserts succeed on a two-item order. -/
theorem claim9_sequential_persistence_witness :
    persistOrder (fun _ => true) ⟨[], []⟩ 42 [(1, 7, 4), (1, 8, 2)]
      = ({ orders := [42],
           order_items := [(42, 1, 7, 4), (42, 1, 8, 2)] }, true) :=
  claim9_sequential_persistence (fun _ => true) ⟨[], []⟩ 42
    [(1, 7, 4), (1, 8, 2)] (fun _ => rfl)

/-- C10 counterexample: a stored negative wound width passes the
truthiness gate, so an order reaches area computation with
wound_area = −1 and max_allowed_area = −1.2 — the claimed consequence
"every order that reaches area computation has wound_area > 0" fails. -/
theorem claim10_counterexample :
    createOrder fpMain fvMain ⟨some 5, [⟨some 8, 3⟩]⟩
      = .areaExceeded (-1) (-1.2) 0
    ∧ ¬ ((-1 : ℚ) > 0) := by
  constructor
  · norm_num [createOrder, fpMain, fvMain, patientNegative, approvedIvr,
      hasApprovedIvr, truthy, computeTotalArea, Patient.maxAllowedArea,
      Patient.woundArea,
      show parse_variant_size_to_cm2 "large" = 0 from rfl]
  · norm_num

/-- C10 amended: a zero (or missing) recorded wound dimension is always
rejected with the wound-size-missing error once the patient and IVR
gates pass; and provided the recorded dimensions are nonnegative, every
order that reaches area computation has wound_area > 0 and
max_allowed_area > 0. -/
theorem claim10_zero_dimension (fp : ℕ → Option Patient)
    (fv : ℕ → Option ProductVariant) (pid : ℕ) (p : Patient)
    (items : List OrderItemReq)
    (hpid : pid ≠ 0) (hp : fp pid = some p)
    (hivr : hasApprovedIvr p = true) :
    ((p.wound_size_length = none ∨ p.wound_size_length = some 0
        ∨ p.wound_size_width = none ∨ p.wound_size_width = some 0) →
      createOrder fp fv ⟨some pid, items⟩ = .woundSizeMissing)
    ∧ ∀ L W, p.wound_size_length = some L → p.wound_size_width = some W →
        0 ≤ L → 0 ≤ W →
        truthy p.wound_size_length = true → truthy p.wound_size_width = true →
        0 < p.woundArea ∧ 0 < p.maxAllowedArea := by
  constructor
  · intro hz
    have hfalse : truthy p.wound_size_length = false
        ∨ truthy p.wound_size_width = false := by
      rcases hz with h | h | h | h <;> rw [h] <;> simp [truthy]
    rcases hfalse with h | h <;> simp [createOrder, hp, if_neg hpid, hivr, h]
  · intro L W hLf hWf hL hW htr1 htr2
    rw [hLf] at htr1
    rw [hWf] at htr2
    have hL0 : L ≠ 0 := by
      intro h; rw [h] at htr1; exact absurd htr1 (by simp [truthy])
    have hW0 : W ≠ 0 := by
      intro h; rw [h] at htr2; exact absurd htr2 (by simp [truthy])
    have hLp : 0 < L := lt_of_le_of_ne hL (Ne.symm hL0)
    have hWp : 0 < W := lt_of_le_of_ne hW (Ne.symm hW0)
    have hwa : p.woundArea = L * W := by
      simp [Patient.woundArea, hLf, hWf]
    constructor
    · rw [hwa]; positivity
    · simp only [Patient.maxAllowedArea, hwa]; positivity

/-- Witness for C10 amended: the zero-length patient is rejected with
the wound-size error, and the 4×4 patient yields positive areas. -/
theorem claim10_zero_dimension_witness :
    createOrder fpMain fvMain ⟨some 6, [⟨some 7, 1⟩]⟩ = .woundSizeMissing
    ∧ (0 < patient44.woundArea ∧ 0 < patient44.maxAllowedArea) :=
  ⟨(claim10_zero_dimension fpMain fvMain 6 patientZero [⟨some 7, 1⟩]
      (by decide) rfl rfl).1 (Or.inr (Or.inl rfl)),
   (claim10_zero_dimension fpMain fvMain 3 patient44 [⟨some 7, 1⟩]
      (by decide) rfl rfl).2 4 4 rfl rfl (by norm_num) (by norm_num) rfl rfl⟩

end Promed
